import Mathlib

/-!
# Verification of the integration-test harness
(`internal/integration/integration.go` of exposure-notifications-server)

Shallow embedding of the harness-setup code and of the client-side
transport rewriter.  Go machine details are modelled as follows:

* `time.Time` and `time.Duration` are `Int` (seconds); `time.Now()` is
  frozen to a parameter `now` threaded through the setup, so the source's
  `time.Now().Add(-2 * time.Second)` becomes `now - 2` and
  `time.Now().Add(1 * time.Hour)` becomes `now + 3600`.
* Go sets (`map[string]struct{}`, `map[int64]struct{}`) are lists of their
  keys; a Go slice that distinguishes `nil` from empty is
  `Option (List _)`, with `none` for `nil` and `some []` for `[]int64{}`.
* The straight-line setup code of `testServer` / `NewTestServer` is a
  fixed sequence of `Step`s run by the interpreter `runProg`.  Every Go
  statement of the form `x, err := ...; if err != nil { tb.Fatal(err) }`
  (and `database.NewTestDatabase`, which calls `tb.Fatal` internally) is a
  step with `canFail _ = true`; whether it errors is decided by a fault
  oracle `f : Faults`, and on the first error the run aborts — exactly
  the effect of `tb.Fatal`, which stops the calling goroutine.
* Observable effects are recorded in an `HState`: the executed-step trace,
  the contents of the authorized-app provider and of the two database
  tables written by the seeder, the order of database writes, the mux
  routing table, and the teardown actions registered with `tb.Cleanup`.
-/

namespace Integration

/-- The constant `exportDir = "my-bucket"` (integration.go:41). -/
def exportDir : String := "my-bucket"

/-- Model of `authorizedappmodel.AuthorizedApp` (the fields set at
integration.go:220-231); Go string-key and int64-key sets become lists. -/
structure AuthorizedApp where
  AppPackageName : String
  AllowedRegions : List String
  AllowedHealthAuthorityIDs : List Int
  BypassHealthAuthorityVerification : Bool
deriving DecidableEq

/-- Model of `exportmodel.SignatureInfo` (fields set at integration.go:237-241). -/
structure SignatureInfo where
  SigningKey : String
  SigningKeyVersion : String
  SigningKeyID : String
deriving DecidableEq

/-- Model of `exportmodel.ExportConfig` (fields set at integration.go:247-254).
`SignatureInfoIDs` is `Option (List Int)` so that a `nil` slice (`none`)
is distinguished from the empty slice `[]int64{}` (`some []`). -/
structure ExportConfig where
  BucketName : String
  Period : Int
  OutputRegion : String
  From : Int
  Thru : Int
  SignatureInfoIDs : Option (List Int)
deriving DecidableEq

/-- The `AuthorizedApp` literal inserted by `startAuthorizedApp`
(integration.go:220-231). -/
def theAuthorizedApp : AuthorizedApp :=
  { AppPackageName := "com.example.app"
    AllowedRegions := ["TEST"]
    AllowedHealthAuthorityIDs := [12345]
    BypassHealthAuthorityVerification := true }

/-- The `SignatureInfo` literal inserted by `createSignatureInfo`
(integration.go:237-241). -/
def theSignatureInfo : SignatureInfo :=
  { SigningKey := "signer"
    SigningKeyVersion := "v1"
    SigningKeyID := "US" }

/-- Parameters of a harness run: the frozen wall-clock time (seconds) and
the `exportPeriod` argument of `NewTestServer` (seconds). -/
structure Params where
  now : Int
  exportPeriod : Int
deriving DecidableEq

/-- The `ExportConfig` literal built by `createSignatureInfo`
(integration.go:247-254): bucket `exportDir`, period `exportPeriod`,
output region `"TEST"`, window `[now - 2s, now + 1h]`, and the
empty-but-non-nil id slice `[]int64{}`. -/
def theExportConfig (p : Params) : ExportConfig :=
  { BucketName := exportDir
    Period := p.exportPeriod
    OutputRegion := "TEST"
    From := p.now - 2
    Thru := p.now + 3600
    SignatureInfoIDs := some [] }

/-- One database write performed through `exportdatabase.New(db)`. -/
inductive DBWrite
  | sigInfo (si : SignatureInfo)
  | exportConfig (ec : ExportConfig)
deriving DecidableEq

/-- The five subsystem handlers mounted on the mux (integration.go:97-165). -/
inductive Adapter
  | cleanupExport
  | cleanupExposure
  | exportServer
  | federationIn
  | publish
deriving DecidableEq

/-- One `mux.Handle(pattern, handler)` registration.  `strippedAt` is
`some pre` when the handler is wrapped in `http.StripPrefix(pre, ...)`
before being mounted, `none` otherwise. -/
structure RouteEntry where
  pattern : String
  adapter : Adapter
  strippedAt : Option String
deriving DecidableEq

/-- An action registered to run at test teardown.  The harness registers
only `stop` (the context cancel function, integration.go:173-174); the
other two constructors exist so that theorems can state that the harness
never closes the database and never calls `env.Cleanup`
(integration.go:94-95). -/
inductive TeardownAction
  | cancelContext
  | closeDatabase
  | envCleanup
deriving DecidableEq

/-- The statements of `testServer`, `startAuthorizedApp` and
`createSignatureInfo`, in source order.  `closeDatabase` is a step the
embedding provides but no program of this file ever executes. -/
inductive Step
  | mkAuthorizedAppProvider
  | mkBlobStorage
  | mkTestDatabase
  | mkKeyManager
  | mkSecretManager
  | mkEnv
  | mkCleanupExportHandler
  | mountCleanupExport
  | mkCleanupExposureHandler
  | mountCleanupExposure
  | mkExportServer
  | mountExport
  | mountFederationIn
  | mkPublishHandler
  | mountPublish
  | mkServer
  | registerCleanupStop
  | startListener
  | mkClient
  | addAuthorizedApp
  | addSignatureInfo
  | addExportConfig
  | closeDatabase
deriving DecidableEq

/-- Steps whose Go statement can return an error that is routed to
`tb.Fatal` (or, for `database.NewTestDatabase`, calls `tb.Fatal` itself).
`serverenv.New`, the `mux.Handle` calls, `federationin.NewHandler`,
`tb.Cleanup`, the `go` statement and `testClient` cannot fail. -/
def canFail : Step → Bool
  | .mkEnv => false
  | .mountCleanupExport => false
  | .mountCleanupExposure => false
  | .mountExport => false
  | .mountFederationIn => false
  | .mountPublish => false
  | .registerCleanupStop => false
  | .startListener => false
  | .mkClient => false
  | _ => true

/-- A fault oracle: which fallible steps error on this run. -/
def Faults : Type := Step → Bool

/-- The fault oracle of an error-free run. -/
def noFaults : Faults := fun _ => false

/-- Step `s` errors under oracle `f`. -/
def fails (f : Faults) (s : Step) : Bool := canFail s && f s

/-- The observable state of a harness run. -/
structure HState where
  trace : List Step
  authorizedApps : List AuthorizedApp
  signatureInfos : List SignatureInfo
  exportConfigs : List ExportConfig
  dbWrites : List DBWrite
  routes : List RouteEntry
  cleanupActions : List TeardownAction
deriving DecidableEq

/-- The state before any setup step has run. -/
def initHState : HState :=
  { trace := []
    authorizedApps := []
    signatureInfos := []
    exportConfigs := []
    dbWrites := []
    routes := []
    cleanupActions := [] }

/-- The effect of one successfully executed step: it is appended to the
trace, and the mutating steps record their writes, mounts and
registrations. -/
def applyStep (p : Params) (s : Step) (st : HState) : HState :=
  let st := { st with trace := st.trace ++ [s] }
  match s with
  | .mountCleanupExport =>
      { st with routes := st.routes ++
          [{ pattern := "/cleanup-export", adapter := .cleanupExport, strippedAt := none }] }
  | .mountCleanupExposure =>
      { st with routes := st.routes ++
          [{ pattern := "/cleanup-exposure", adapter := .cleanupExposure, strippedAt := none }] }
  | .mountExport =>
      { st with routes := st.routes ++
          [{ pattern := "/export/", adapter := .exportServer, strippedAt := some "/export" }] }
  | .mountFederationIn =>
      { st with routes := st.routes ++
          [{ pattern := "/federation-in", adapter := .federationIn, strippedAt := none }] }
  | .mountPublish =>
      { st with routes := st.routes ++
          [{ pattern := "/publish", adapter := .publish, strippedAt := none }] }
  | .registerCleanupStop =>
      { st with cleanupActions := st.cleanupActions ++ [.cancelContext] }
  | .addAuthorizedApp =>
      { st with authorizedApps := st.authorizedApps ++ [theAuthorizedApp] }
  | .addSignatureInfo =>
      { st with signatureInfos := st.signatureInfos ++ [theSignatureInfo]
                dbWrites := st.dbWrites ++ [.sigInfo theSignatureInfo] }
  | .addExportConfig =>
      { st with exportConfigs := st.exportConfigs ++ [theExportConfig p]
                dbWrites := st.dbWrites ++ [.exportConfig (theExportConfig p)] }
  | _ => st

/-- Run a straight-line program: on the first failing step the run aborts
with `false` (the effect of `tb.Fatal`) and no later step executes. -/
def runProg (p : Params) (f : Faults) : List Step → HState → HState × Bool
  | [], st => (st, true)
  | s :: rest, st =>
      if fails f s then (st, false)
      else runProg p f rest (applyStep p s st)

/-- The statements of `testServer` (integration.go:60-187), in order. -/
def testServerProg : List Step :=
  [.mkAuthorizedAppProvider, .mkBlobStorage, .mkTestDatabase, .mkKeyManager,
   .mkSecretManager, .mkEnv,
   .mkCleanupExportHandler, .mountCleanupExport,
   .mkCleanupExposureHandler, .mountCleanupExposure,
   .mkExportServer, .mountExport,
   .mountFederationIn,
   .mkPublishHandler, .mountPublish,
   .mkServer, .registerCleanupStop, .startListener, .mkClient]

/-- The statements of `startAuthorizedApp` (integration.go:218-234). -/
def startAuthorizedAppProg : List Step := [.addAuthorizedApp]

/-- The statements of `createSignatureInfo` (integration.go:236-258). -/
def createSignatureInfoProg : List Step := [.addSignatureInfo, .addExportConfig]

/-- The statements of `NewTestServer` (integration.go:45-57):
`testServer`, then `startAuthorizedApp`, then `createSignatureInfo`. -/
def newTestServerProg : List Step :=
  testServerProg ++ startAuthorizedAppProg ++ createSignatureInfoProg

/-- The function `createSignatureInfo` as a run over its own statements. -/
def createSignatureInfo (p : Params) (f : Faults) (st : HState) : HState × Bool :=
  runProg p f createSignatureInfoProg st

/-- The full `NewTestServer` run: final state and whether it completed. -/
def NewTestServerRun (p : Params) (f : Faults) : HState × Bool :=
  runProg p f newTestServerProg initHState

/-- The function `NewTestServer`: the topology handed to the test, or `none` when any
setup step called `tb.Fatal`. -/
def NewTestServer (p : Params) (f : Faults) : Option HState :=
  if (NewTestServerRun p f).2 then some (NewTestServerRun p f).1 else none

/-! ## Transport shim (`prefixRoundTripper`, integration.go:189-216) -/

/-- Model of `url.URL`: the fields `RoundTrip` reads or writes, plus the
path.  An absent scheme or host is the empty string, as in Go. -/
structure URL where
  Scheme : String
  Host : String
  Path : String
deriving DecidableEq

/-- Model of `http.Request`: its URL and the remaining fields (method,
body), which the shim never touches. -/
structure Request where
  URL : URL
  Method : String
  Body : String
deriving DecidableEq

/-- Model of the `prefixRoundTripper` struct (integration.go:189-192,
written `PrefixRoundTripper` because a Lean name cannot start with the
token `prefix`): `addr` is the listener's bound address `srv.Addr()`;
the underlying transport `rt` is kept abstract, so `RoundTrip` below
returns the request that is delegated to `rt`. -/
structure PrefixRoundTripper where
  addr : String

/-- The method `prefixRoundTripper.RoundTrip` (integration.go:194-204) as the request
delegated to the underlying transport `p.rt`.  The source mutates the
shared `r.URL` in place through the pointer `u`; in this pure model the
result carries the rewritten URL and every other field of `r` unchanged. -/
def PrefixRoundTripper.RoundTrip (p : PrefixRoundTripper) (r : Request) : Request :=
  let u := r.URL
  let u := if u.Scheme = "" then { u with Scheme := "http" } else u
  let u := if u.Host = "" then { u with Host := p.addr } else u
  { r with URL := u }

/-! ## Listener goroutine (integration.go:177-181) -/

/-- How one run of the serving loop ends: terminated by cancellation of
`stopCtx`, or by a genuine serving error. -/
inductive ServeOutcome
  | canceled
  | servingError (msg : String)
deriving DecidableEq

/-- Modelled from the spec: `server.ServeHTTPHandler` (package
`internal/server`, whose source is not under src/) serves until its
context is canceled; on cancellation it shuts down gracefully and
returns no error, and otherwise it returns the fatal serving error
(spec §4.3, §8: cancellation terminates the scheduled unit of execution
"without error being reported for the cancellation itself"). -/
def ServeHTTPHandler : ServeOutcome → Option String
  | .canceled => none
  | .servingError e => some e

/-- A report made to the `testing.TB` failure mechanism. -/
inductive Report
  | tbError (msg : String)
  | tbFatal (msg : String)
deriving DecidableEq

/-- The body of the goroutine started at integration.go:177-181:
`if err := srv.ServeHTTPHandler(stopCtx, mux); err != nil { tb.Error(err) }`.
Returns the reports the goroutine makes. -/
def listenerGoroutine (o : ServeOutcome) : List Report :=
  match ServeHTTPHandler o with
  | some e => [Report.tbError e]
  | none => []

/-! ## Interpreter lemmas -/

theorem applyStep_trace (p : Params) (s : Step) (st : HState) :
    (applyStep p s st).trace = st.trace ++ [s] := by
  cases s <;> rfl

theorem runProg_trace (p : Params) (f : Faults) (prog : List Step) (st : HState) :
    (runProg p f prog st).1.trace =
      st.trace ++ prog.takeWhile (fun s => !fails f s) := by
  induction prog generalizing st with
  | nil => simp [runProg]
  | cons s rest ih =>
      cases h : fails f s with
      | true => simp [runProg, h]
      | false =>
          have hstep : runProg p f (s :: rest) st = runProg p f rest (applyStep p s st) := by
            simp [runProg, h]
          rw [hstep, ih, applyStep_trace, List.append_assoc]
          simp [h]

theorem runProg_ok (p : Params) (f : Faults) (prog : List Step) (st : HState) :
    (runProg p f prog st).2 = prog.all (fun s => !fails f s) := by
  induction prog generalizing st with
  | nil => simp [runProg]
  | cons s rest ih =>
      by_cases h : fails f s
      · simp [runProg, h]
      · simp [runProg, h, ih]

theorem runProg_of_all_ok (p : Params) (f : Faults) (prog : List Step) (st : HState)
    (h : prog.all (fun s => !fails f s) = true) :
    runProg p f prog st = (prog.foldl (fun t s => applyStep p s t) st, true) := by
  induction prog generalizing st with
  | nil => simp [runProg]
  | cons s rest ih =>
      simp only [List.all_cons, Bool.and_eq_true] at h
      have hs : fails f s = false := by
        cases hfs : fails f s
        · rfl
        · rw [hfs] at h; simp at h
      simp [runProg, hs, List.foldl_cons, ih (applyStep p s st) h.2]

/-- The state after an error-free `NewTestServer` run. -/
def finalHState (p : Params) : HState :=
  newTestServerProg.foldl (fun t s => applyStep p s t) initHState

theorem NewTestServer_eq_some (p : Params) (f : Faults) (st : HState)
    (h : NewTestServer p f = some st) : st = finalHState p := by
  unfold NewTestServer NewTestServerRun at h
  split at h
  case isTrue hok =>
    rw [runProg_ok] at hok
    rw [runProg_of_all_ok p f _ _ hok] at h
    simpa [finalHState] using h.symm
  case isFalse hok => cases h

theorem finalHState_eq (p : Params) :
    finalHState p =
      { trace := newTestServerProg
        authorizedApps := [theAuthorizedApp]
        signatureInfos := [theSignatureInfo]
        exportConfigs := [theExportConfig p]
        dbWrites := [.sigInfo theSignatureInfo, .exportConfig (theExportConfig p)]
        routes := [{ pattern := "/cleanup-export", adapter := .cleanupExport, strippedAt := none },
                   { pattern := "/cleanup-exposure", adapter := .cleanupExposure, strippedAt := none },
                   { pattern := "/export/", adapter := .exportServer, strippedAt := some "/export" },
                   { pattern := "/federation-in", adapter := .federationIn, strippedAt := none },
                   { pattern := "/publish", adapter := .publish, strippedAt := none }]
        cleanupActions := [.cancelContext] } := by
  simp [finalHState, newTestServerProg, testServerProg, startAuthorizedAppProg,
    createSignatureInfoProg, applyStep, initHState]

theorem applyStep_cleanupActions (p : Params) (s : Step) (st : HState) :
    (applyStep p s st).cleanupActions = st.cleanupActions ∨
    (applyStep p s st).cleanupActions =
      st.cleanupActions ++ [TeardownAction.cancelContext] := by
  cases s <;> simp [applyStep]

theorem runProg_cleanup_all (p : Params) (f : Faults) (prog : List Step) (st : HState)
    (h : st.cleanupActions.all (fun a => decide (a = TeardownAction.cancelContext)) = true) :
    (runProg p f prog st).1.cleanupActions.all
      (fun a => decide (a = TeardownAction.cancelContext)) = true := by
  induction prog generalizing st with
  | nil => simpa [runProg] using h
  | cons s rest ih =>
      cases hfs : fails f s with
      | true => simpa [runProg, hfs] using h
      | false =>
          have hstep : runProg p f (s :: rest) st = runProg p f rest (applyStep p s st) := by
            simp [runProg, hfs]
          rw [hstep]
          apply ih
          rcases applyStep_cleanupActions p s st with heq | heq <;> rw [heq] <;> simp [h]

theorem runProg_trace_all (p : Params) (f : Faults) (prog : List Step) (st : HState)
    (q : Step → Bool) (h : st.trace.all q = true) (hprog : prog.all q = true) :
    (runProg p f prog st).1.trace.all q = true := by
  induction prog generalizing st with
  | nil => simpa [runProg] using h
  | cons s rest ih =>
      simp only [List.all_cons, Bool.and_eq_true] at hprog
      cases hfs : fails f s with
      | true => simpa [runProg, hfs] using h
      | false =>
          have hstep : runProg p f (s :: rest) st = runProg p f rest (applyStep p s st) := by
            simp [runProg, hfs]
          rw [hstep]
          refine ih (applyStep p s st) ?_ hprog.2
          rw [applyStep_trace]
          simp [h, hprog.1]

/-! ## Sample inputs used by the witnesses -/

/-- Sample parameters: `now = 0`, one-hour export period. -/
def sampleParams : Params := { now := 0, exportPeriod := 3600 }

/-- A shim bound to a fixed listener address. -/
def sampleShim : PrefixRoundTripper := { addr := "127.0.0.1:1234" }

/-- A fully qualified request (explicit scheme and host). -/
def fullRequest : Request :=
  { URL := { Scheme := "https", Host := "example.com", Path := "/publish" }
    Method := "POST"
    Body := "payload" }

/-- A request with an explicit non-HTTP scheme but no host. -/
def httpsNoHostRequest : Request :=
  { URL := { Scheme := "https", Host := "", Path := "/export/" }
    Method := "GET"
    Body := "" }

/-- A fault oracle under which only `server.New` errors. -/
def serverNewFault : Faults := fun t => decide (t = Step.mkServer)

/-! ## The claims -/

/-- C1: for every harness run whose seeding succeeds, `createSignatureInfo`
performs exactly two sequential database writes, in order: first the
`SignatureInfo` insert, then the `ExportConfig` insert; the export
configuration's active window is `[now - 2s, now + 1h]`, its period is the
export period `P` passed to the harness, and its signing-key descriptor id
list is the empty-but-present slice `[]int64{}` (`some []`, not
nil-absent `none`). -/
theorem C1_fixture_seeder_two_writes (p : Params) (f : Faults) (st : HState)
    (h : (createSignatureInfo p f st).2 = true) :
    (createSignatureInfo p f st).1.dbWrites =
      st.dbWrites ++ [DBWrite.sigInfo theSignatureInfo,
                      DBWrite.exportConfig (theExportConfig p)] ∧
    (theExportConfig p).From = p.now - 2 ∧
    (theExportConfig p).Thru = p.now + 3600 ∧
    (theExportConfig p).Period = p.exportPeriod ∧
    (theExportConfig p).SignatureInfoIDs = some [] := by
  unfold createSignatureInfo at h ⊢
  rw [runProg_ok] at h
  rw [runProg_of_all_ok p f _ _ h]
  refine ⟨?_, rfl, rfl, rfl, rfl⟩
  simp [createSignatureInfoProg, applyStep]

/-- Witness for C1 at `now = 0`, `exportPeriod = 3600`, no faults. -/
theorem C1_fixture_seeder_two_writes_witness :
    (createSignatureInfo sampleParams noFaults initHState).1.dbWrites =
      initHState.dbWrites ++ [DBWrite.sigInfo theSignatureInfo,
                              DBWrite.exportConfig (theExportConfig sampleParams)] ∧
    (theExportConfig sampleParams).From = sampleParams.now - 2 ∧
    (theExportConfig sampleParams).Thru = sampleParams.now + 3600 ∧
    (theExportConfig sampleParams).Period = sampleParams.exportPeriod ∧
    (theExportConfig sampleParams).SignatureInfoIDs = some [] :=
  C1_fixture_seeder_two_writes sampleParams noFaults initHState (by decide)

/-- C2 counterexample: in the error-free run at `now = 0`,
`exportPeriod = 3600`, both the listener start and a fixture-seeding write
occur, but the seeding write does not precede the listener start:
`NewTestServer` calls `testServer` (which starts the listener and builds
the client) before `startAuthorizedApp` and `createSignatureInfo`. -/
theorem C2_seeding_before_listener_counterexample :
    Step.addAuthorizedApp ∈ (NewTestServerRun sampleParams noFaults).1.trace ∧
    Step.startListener ∈ (NewTestServerRun sampleParams noFaults).1.trace ∧
    ¬ ((NewTestServerRun sampleParams noFaults).1.trace.findIdx
          (· = Step.addAuthorizedApp)
        < (NewTestServerRun sampleParams noFaults).1.trace.findIdx
          (· = Step.startListener)) := by
  decide

/-- C2 amended: in every successful harness setup the Listener start
strictly precedes client construction, and both strictly precede fixture
seeding (authorized app, then signature info, then export config) — the
reverse of the claimed seeding-before-listener order. -/
theorem C2_ordering_amended (p : Params) (f : Faults) (st : HState)
    (h : NewTestServer p f = some st) :
    st.trace.findIdx (· = Step.startListener)
      < st.trace.findIdx (· = Step.mkClient) ∧
    st.trace.findIdx (· = Step.mkClient)
      < st.trace.findIdx (· = Step.addAuthorizedApp) ∧
    st.trace.findIdx (· = Step.addAuthorizedApp)
      < st.trace.findIdx (· = Step.addSignatureInfo) ∧
    st.trace.findIdx (· = Step.addSignatureInfo)
      < st.trace.findIdx (· = Step.addExportConfig) := by
  have hst : st.trace = newTestServerProg := by
    rw [NewTestServer_eq_some p f st h, finalHState_eq]
  rw [hst]
  decide

/-- Witness for C2 (amended) on the error-free run. -/
theorem C2_ordering_amended_witness :
    (finalHState sampleParams).trace.findIdx (· = Step.startListener)
      < (finalHState sampleParams).trace.findIdx (· = Step.mkClient) ∧
    (finalHState sampleParams).trace.findIdx (· = Step.mkClient)
      < (finalHState sampleParams).trace.findIdx (· = Step.addAuthorizedApp) ∧
    (finalHState sampleParams).trace.findIdx (· = Step.addAuthorizedApp)
      < (finalHState sampleParams).trace.findIdx (· = Step.addSignatureInfo) ∧
    (finalHState sampleParams).trace.findIdx (· = Step.addSignatureInfo)
      < (finalHState sampleParams).trace.findIdx (· = Step.addExportConfig) :=
  C2_ordering_amended sampleParams noFaults (finalHState sampleParams) (by decide)

/-- C3: the transport shim sets the scheme to `"http"` exactly when the
request has none, sets the host to the listener address exactly when the
request has none, never touches path, method or body, and delegates a
fully-qualified request (explicit scheme and host) unmodified. -/
theorem C3_shim_defaults (p : PrefixRoundTripper) (r : Request) :
    (p.RoundTrip r).URL.Scheme
      = (if r.URL.Scheme = "" then "http" else r.URL.Scheme) ∧
    (p.RoundTrip r).URL.Host
      = (if r.URL.Host = "" then p.addr else r.URL.Host) ∧
    (p.RoundTrip r).URL.Path = r.URL.Path ∧
    (p.RoundTrip r).Method = r.Method ∧
    (p.RoundTrip r).Body = r.Body ∧
    (r.URL.Scheme ≠ "" → r.URL.Host ≠ "" → p.RoundTrip r = r) := by
  unfold PrefixRoundTripper.RoundTrip
  by_cases hs : r.URL.Scheme = "" <;> by_cases hh : r.URL.Host = "" <;>
    simp [hs, hh]

/-- Witness for C3: a fully qualified request is delegated unmodified. -/
theorem C3_shim_defaults_witness :
    sampleShim.RoundTrip fullRequest = fullRequest :=
  (C3_shim_defaults sampleShim fullRequest).2.2.2.2.2 (by decide) (by decide)

/-- C10: scheme and host defaulting are independent — a request with an
explicit non-HTTP scheme but no host keeps its scheme and receives the
listener address as host; a request with a host but no scheme receives
only the default scheme; and the rewrite touches nothing but the URL of
the caller's request. -/
theorem C10_shim_independent_defaults (p : PrefixRoundTripper) (r : Request) :
    (r.URL.Scheme ≠ "" → r.URL.Host = "" →
      (p.RoundTrip r).URL.Scheme = r.URL.Scheme ∧
      (p.RoundTrip r).URL.Host = p.addr) ∧
    (r.URL.Scheme = "" → r.URL.Host ≠ "" →
      (p.RoundTrip r).URL.Scheme = "http" ∧
      (p.RoundTrip r).URL.Host = r.URL.Host) ∧
    p.RoundTrip r = { r with URL := (p.RoundTrip r).URL } := by
  unfold PrefixRoundTripper.RoundTrip
  by_cases hs : r.URL.Scheme = "" <;> by_cases hh : r.URL.Host = "" <;>
    simp [hs, hh]

/-- Witness for C10: an `https` request with no host keeps its scheme and
gets the listener address. -/
theorem C10_shim_independent_defaults_witness :
    (sampleShim.RoundTrip httpsNoHostRequest).URL.Scheme
        = httpsNoHostRequest.URL.Scheme ∧
    (sampleShim.RoundTrip httpsNoHostRequest).URL.Host = sampleShim.addr :=
  (C10_shim_independent_defaults sampleShim httpsNoHostRequest).1
    (by decide) (by decide)

/-- C4: the assembled router has exactly these five entries, in mount
order, and a strip-wrapped mount occurs for the export adapter only
(which strips `"/export"`). -/
theorem C4_router_five_entries (p : Params) (f : Faults) (st : HState)
    (h : NewTestServer p f = some st) :
    st.routes =
      [{ pattern := "/cleanup-export", adapter := .cleanupExport, strippedAt := none },
       { pattern := "/cleanup-exposure", adapter := .cleanupExposure, strippedAt := none },
       { pattern := "/export/", adapter := .exportServer, strippedAt := some "/export" },
       { pattern := "/federation-in", adapter := .federationIn, strippedAt := none },
       { pattern := "/publish", adapter := .publish, strippedAt := none }] ∧
    st.routes.length = 5 ∧
    (∀ e ∈ st.routes, e.strippedAt ≠ none → e.adapter = Adapter.exportServer) ∧
    (∀ e ∈ st.routes, e.adapter = Adapter.exportServer →
      e.strippedAt = some "/export") := by
  have hroutes : st.routes =
      [{ pattern := "/cleanup-export", adapter := .cleanupExport, strippedAt := none },
       { pattern := "/cleanup-exposure", adapter := .cleanupExposure, strippedAt := none },
       { pattern := "/export/", adapter := .exportServer, strippedAt := some "/export" },
       { pattern := "/federation-in", adapter := .federationIn, strippedAt := none },
       { pattern := "/publish", adapter := .publish, strippedAt := none }] := by
    rw [NewTestServer_eq_some p f st h, finalHState_eq]
  rw [hroutes]
  refine ⟨rfl, rfl, ?_, ?_⟩ <;> decide

/-- Witness for C4 on the error-free run. -/
theorem C4_router_five_entries_witness :
    (finalHState sampleParams).routes.length = 5 :=
  (C4_router_five_entries sampleParams noFaults (finalHState sampleParams)
    (by decide)).2.1

/-- C5: after every successful harness setup, exactly one
`AuthorizedApp`, one `SignatureInfo` and one `ExportConfig` exist in the
harness's stores. -/
theorem C5_exactly_one_of_each (p : Params) (f : Faults) (st : HState)
    (h : NewTestServer p f = some st) :
    st.authorizedApps.length = 1 ∧
    st.signatureInfos.length = 1 ∧
    st.exportConfigs.length = 1 := by
  rw [NewTestServer_eq_some p f st h, finalHState_eq]
  exact ⟨rfl, rfl, rfl⟩

/-- Witness for C5 on the error-free run. -/
theorem C5_exactly_one_of_each_witness :
    (finalHState sampleParams).authorizedApps.length = 1 ∧
    (finalHState sampleParams).signatureInfos.length = 1 ∧
    (finalHState sampleParams).exportConfigs.length = 1 :=
  C5_exactly_one_of_each sampleParams noFaults (finalHState sampleParams)
    (by decide)

/-- C6: the seeded baseline authorized application has package name
`"com.example.app"`, allowed region set `{"TEST"}`, allowed health
authority id set `{12345}`, and verification bypass enabled. -/
theorem C6_authorized_app_fixture (p : Params) (f : Faults) (st : HState)
    (h : NewTestServer p f = some st) :
    st.authorizedApps = [theAuthorizedApp] ∧
    theAuthorizedApp.AppPackageName = "com.example.app" ∧
    theAuthorizedApp.AllowedRegions = ["TEST"] ∧
    theAuthorizedApp.AllowedHealthAuthorityIDs = [12345] ∧
    theAuthorizedApp.BypassHealthAuthorityVerification = true := by
  rw [NewTestServer_eq_some p f st h, finalHState_eq]
  exact ⟨rfl, rfl, rfl, rfl, rfl⟩

/-- Witness for C6 on the error-free run. -/
theorem C6_authorized_app_fixture_witness :
    (finalHState sampleParams).authorizedApps = [theAuthorizedApp] :=
  (C6_authorized_app_fixture sampleParams noFaults (finalHState sampleParams)
    (by decide)).1

/-- C7: if any setup step errors, the harness build aborts at that step
(`tb.Fatal`): no topology is returned (`none`), the executed trace is
exactly the prefix of the program before the first failing step, and in
particular the failing step and everything after it never run. -/
theorem C7_fail_fast (p : Params) (f : Faults) (s : Step)
    (hs : s ∈ newTestServerProg) (hf : fails f s = true) :
    NewTestServer p f = none ∧
    (NewTestServerRun p f).1.trace
      = newTestServerProg.takeWhile (fun t => !fails f t) ∧
    s ∉ (NewTestServerRun p f).1.trace := by
  have hok : (NewTestServerRun p f).2 = false := by
    rw [NewTestServerRun, runProg_ok]
    cases hall : newTestServerProg.all (fun t => !fails f t) with
    | false => rfl
    | true =>
        have := (List.all_eq_true.mp hall) s hs
        rw [hf] at this
        simp at this
  have htr : (NewTestServerRun p f).1.trace
      = newTestServerProg.takeWhile (fun t => !fails f t) := by
    rw [NewTestServerRun, runProg_trace]
    rfl
  refine ⟨?_, htr, ?_⟩
  · unfold NewTestServer
    rw [hok]
    rfl
  · rw [htr]
    intro hmem
    have hp := List.mem_takeWhile_imp hmem
    rw [hf] at hp
    simp at hp

/-- Witness for C7: when `server.New` fails, setup returns nothing, the
trace stops before `mkServer`, and `mkServer` never runs. -/
theorem C7_fail_fast_witness :
    NewTestServer sampleParams serverNewFault = none ∧
    (NewTestServerRun sampleParams serverNewFault).1.trace
      = newTestServerProg.takeWhile (fun t => !fails serverNewFault t) ∧
    Step.mkServer ∉ (NewTestServerRun sampleParams serverNewFault).1.trace :=
  C7_fail_fast sampleParams serverNewFault Step.mkServer (by decide) (by decide)

/-- C8: the listener goroutine reports a serving error through the
asynchronous `tb.Error` mechanism and reports nothing at all when the
serving loop ends by cancellation of the harness's context; every report
it can make is a `tb.Error`, never a `tb.Fatal` thrown into the caller. -/
theorem C8_async_serving_errors :
    listenerGoroutine ServeOutcome.canceled = [] ∧
    (∀ e, listenerGoroutine (ServeOutcome.servingError e) = [Report.tbError e]) ∧
    (∀ o, (listenerGoroutine o).all
        (fun r => match r with | .tbError _ => true | .tbFatal _ => false) = true) := by
  refine ⟨rfl, fun e => rfl, fun o => ?_⟩
  cases o <;> rfl

/-- C9: on every run — faulty or not — the harness never executes a
database close, and the only teardown action it ever registers with
`tb.Cleanup` is the context cancellation (in particular neither a
database close nor `env.Cleanup`). -/
theorem C9_never_closes_database (p : Params) (f : Faults) :
    (NewTestServerRun p f).1.trace.all
      (fun t => decide (t ≠ Step.closeDatabase)) = true ∧
    (NewTestServerRun p f).1.cleanupActions.all
      (fun a => decide (a = TeardownAction.cancelContext)) = true := by
  constructor
  · exact runProg_trace_all p f newTestServerProg initHState _ (by decide) (by decide)
  · exact runProg_cleanup_all p f newTestServerProg initHState (by decide)

end Integration
